import Mathlib

/-!
Shallow embedding of the AiNews fetch–deduplicate–summarize pipeline
(repository `hedaayat/AiNews`, package `src/src/ainews`), together with
proofs of the specification's testable properties.

Conventions used throughout:
* Python `datetime` values are modelled as rational numbers of seconds
  since an arbitrary epoch (`Time := ℚ`); calendar dates as integers.
* Python `set` lookups are modelled as list membership; the lists carry
  exactly the elements the source inserts.
* Fallible Python code (code that may raise) returns `PyResult`.
-/

namespace AiNews

/-- Timestamps (`datetime.datetime`) as rational seconds since an epoch. -/
abbrev Time := ℚ

/-- Result of running a piece of Python code that may raise an uncaught
exception. -/
inductive PyResult (α : Type) where
  | ok (val : α)
  | raised
  deriving DecidableEq, Repr

/-- `ainews.models.article.Article` (models/article.py), restricted to its
stored fields (`word_count` is a derived property and never read by the
code under verification; `summary` is never read either but kept).
`url` is kept as a plain string; pydantic's `HttpUrl` validation is
modelled where articles are constructed (scraper). -/
structure Article where
  id : String
  title : String := ""
  url : String := ""
  source_id : String := ""
  published_at : Option Time := none
  fetched_at : Time := 0
  content : String := ""
  summary : Option String := none
  content_hash : String := ""
  tags : List String := []
  deriving DecidableEq, Repr

/-- `ainews.models.source.SourceType` (models/source.py). -/
inductive SourceType where
  | rss
  | atom
  | web
  deriving DecidableEq, Repr

/-- `ainews.models.source.Source` (models/source.py), stored fields. -/
structure Source where
  id : String
  name : String := ""
  url : String := ""
  source_type : SourceType := .rss
  enabled : Bool := true
  scrape_selector : Option String := none
  last_fetched : Option Time := none
  fetch_interval_hours : Int := 24
  tags : List String := []
  discovered_by_ai : Bool := false
  added_at : Time := 0
  notes : Option String := none
  deriving DecidableEq, Repr

/-- `Source.should_fetch` (models/source.py lines 49-56).  `now` stands for
`datetime.utcnow()`; `hours_since = (now - last).total_seconds() / 3600`. -/
def Source.shouldFetch (s : Source) (now : Time) : Bool :=
  if !s.enabled then false
  else
    match s.last_fetched with
    | none => true
    | some last => decide ((now - last) / 3600 ≥ (s.fetch_interval_hours : ℚ))

/-- `ainews.models.summary.NotableStory` (models/summary.py). -/
structure NotableStory where
  title : String
  source : String
  brief : String
  url : String
  deriving DecidableEq, Repr

/-- `ainews.models.summary.DailySummary` (models/summary.py), stored fields.
`date` is a calendar-date key modelled as an integer day number. -/
structure DailySummary where
  date : Int
  generated_at : Time
  article_count : Int
  article_ids : List String := []
  summary_text : String
  key_topics : List String := []
  notable_stories : List NotableStory := []
  model_used : String
  tokens_used : Option Int := none
  delivered : Bool := false
  delivered_at : Option Time := none
  deriving DecidableEq, Repr

/-! ## A model of Python's `json` module

`json.loads` is modelled by `Json.parse`: a fuelled recursive-descent
parser for the standard JSON grammar (objects, arrays, strings with the
usual escapes, numbers with fraction/exponent, `true`/`false`/`null`).
`none` models `json.JSONDecodeError`.  Python's non-standard acceptance of
`NaN`/`Infinity` literals is not modelled; no verified property involves
them.  Objects are kept as field lists in textual order and `dict.get` is
modelled by `Json.getFieldD`, which takes the LAST binding of a duplicated
key, as `json.loads` does. -/

inductive Json where
  | null
  | bool (b : Bool)
  | num (n : ℚ)
  | str (s : String)
  | arr (elems : List Json)
  | obj (fields : List (String × Json))

namespace Json

def isWsChar (c : Char) : Bool := c = ' ' || c = '\t' || c = '\n' || c = '\r'

def skipWs (cs : List Char) : List Char := cs.dropWhile isWsChar

def isDigitChar (c : Char) : Bool := '0' ≤ c && c ≤ '9'

def digitsVal (ds : List Char) : ℕ :=
  ds.foldl (fun n c => n * 10 + (c.toNat - '0'.toNat)) 0

def hexVal (c : Char) : Option ℕ :=
  if '0' ≤ c ∧ c ≤ '9' then some (c.toNat - '0'.toNat)
  else if 'a' ≤ c ∧ c ≤ 'f' then some (c.toNat - 'a'.toNat + 10)
  else if 'A' ≤ c ∧ c ≤ 'F' then some (c.toNat - 'A'.toNat + 10)
  else none

/-- Body of a JSON string literal, after the opening quote; returns the
decoded characters and the remainder after the closing quote. -/
def parseStringBody : ℕ → List Char → Option (List Char × List Char)
  | 0, _ => none
  | _, [] => none
  | fuel + 1, c :: rest =>
    if c = '"' then some ([], rest)
    else if c = '\\' then
      match rest with
      | [] => none
      | e :: rest2 =>
        let esc : Option (Char × List Char) :=
          if e = '"' then some ('"', rest2)
          else if e = '\\' then some ('\\', rest2)
          else if e = '/' then some ('/', rest2)
          else if e = 'b' then some (Char.ofNat 8, rest2)
          else if e = 'f' then some (Char.ofNat 12, rest2)
          else if e = 'n' then some ('\n', rest2)
          else if e = 'r' then some ('\r', rest2)
          else if e = 't' then some ('\t', rest2)
          else if e = 'u' then
            match rest2 with
            | h1 :: h2 :: h3 :: h4 :: rest3 =>
              match hexVal h1, hexVal h2, hexVal h3, hexVal h4 with
              | some v1, some v2, some v3, some v4 =>
                some (Char.ofNat (((v1 * 16 + v2) * 16 + v3) * 16 + v4), rest3)
              | _, _, _, _ => none
            | _ => none
          else none
        match esc with
        | none => none
        | some (ch, rest3) =>
          match parseStringBody fuel rest3 with
          | none => none
          | some (chars, rem) => some (ch :: chars, rem)
    else if c.toNat < 32 then none
    else
      match parseStringBody fuel rest with
      | none => none
      | some (chars, rem) => some (c :: chars, rem)

/-- Optional fraction part `.digits`. -/
def parseFrac (cs : List Char) : Option (List Char × List Char) :=
  match cs with
  | '.' :: t =>
    let ds := t.takeWhile isDigitChar
    if ds = [] then none else some (ds, t.dropWhile isDigitChar)
  | _ => some ([], cs)

/-- Optional exponent part `(e|E)(+|-)?digits`. -/
def parseExp (cs : List Char) : Option (Int × List Char) :=
  match cs with
  | [] => some (0, [])
  | c :: t =>
    if c = 'e' ∨ c = 'E' then
      let signAndRest : Bool × List Char :=
        match t with
        | '+' :: u => (false, u)
        | '-' :: u => (true, u)
        | _ => (false, t)
      let ds := signAndRest.2.takeWhile isDigitChar
      if ds = [] then none
      else
        some ((if signAndRest.1 then -(digitsVal ds : Int) else (digitsVal ds : Int)),
          signAndRest.2.dropWhile isDigitChar)
    else some (0, c :: t)

/-- JSON number: `-? int frac? exp?` with `int = 0 | [1-9][0-9]*`. -/
def parseNumber (cs : List Char) : Option (ℚ × List Char) :=
  let signAndRest : Bool × List Char :=
    match cs with
    | '-' :: t => (true, t)
    | _ => (false, cs)
  let intDigits := signAndRest.2.takeWhile isDigitChar
  let rest1 := signAndRest.2.dropWhile isDigitChar
  if intDigits = [] then none
  else if 1 < intDigits.length ∧ intDigits.headI = '0' then none
  else
    match parseFrac rest1 with
    | none => none
    | some (fracDigits, rest2) =>
      match parseExp rest2 with
      | none => none
      | some (expVal, rest3) =>
        let mantissa : ℚ :=
          (digitsVal (intDigits ++ fracDigits) : ℚ) / (10 : ℚ) ^ fracDigits.length
        let value : ℚ := mantissa * (10 : ℚ) ^ expVal
        some ((if signAndRest.1 then -value else value), rest3)

mutual

/-- One JSON value, preceded by optional whitespace. -/
def parseValue : ℕ → List Char → Option (Json × List Char)
  | 0, _ => none
  | fuel + 1, cs =>
    match skipWs cs with
    | [] => none
    | c :: rest =>
      if c = '{' then
        match skipWs rest with
        | '}' :: rem => some (.obj [], rem)
        | _ =>
          match parseMembers fuel rest with
          | some (fields, rem) => some (.obj fields, rem)
          | none => none
      else if c = '[' then
        match skipWs rest with
        | ']' :: rem => some (.arr [], rem)
        | _ =>
          match parseItems fuel rest with
          | some (vs, rem) => some (.arr vs, rem)
          | none => none
      else if c = '"' then
        match parseStringBody (rest.length + 1) rest with
        | some (chars, rem) => some (.str (String.mk chars), rem)
        | none => none
      else if (c :: rest).take 4 = "true".toList then
        some (.bool true, (c :: rest).drop 4)
      else if (c :: rest).take 5 = "false".toList then
        some (.bool false, (c :: rest).drop 5)
      else if (c :: rest).take 4 = "null".toList then
        some (.null, (c :: rest).drop 4)
      else
        match parseNumber (c :: rest) with
        | some (q, rem) => some (.num q, rem)
        | none => none

/-- Non-empty object member list: `"key" : value (, members)? }`. -/
def parseMembers : ℕ → List Char → Option (List (String × Json) × List Char)
  | 0, _ => none
  | fuel + 1, cs =>
    match skipWs cs with
    | '"' :: rest =>
      match parseStringBody (rest.length + 1) rest with
      | none => none
      | some (keyChars, afterKey) =>
        match skipWs afterKey with
        | ':' :: afterColon =>
          match parseValue fuel afterColon with
          | none => none
          | some (v, afterVal) =>
            match skipWs afterVal with
            | ',' :: afterComma =>
              match parseMembers fuel afterComma with
              | none => none
              | some (fields, rem) => some ((String.mk keyChars, v) :: fields, rem)
            | '}' :: afterBrace => some ([(String.mk keyChars, v)], afterBrace)
            | _ => none
        | _ => none
    | _ => none

/-- Non-empty array item list: `value (, items)? ]`. -/
def parseItems : ℕ → List Char → Option (List Json × List Char)
  | 0, _ => none
  | fuel + 1, cs =>
    match parseValue fuel cs with
    | none => none
    | some (v, afterVal) =>
      match skipWs afterVal with
      | ',' :: afterComma =>
        match parseItems fuel afterComma with
        | none => none
        | some (vs, rem) => some (v :: vs, rem)
      | ']' :: afterBrack => some ([v], afterBrack)
      | _ => none

end

/-- `json.loads`: parse one value and require only whitespace after it. -/
def parse (s : String) : Option Json :=
  match parseValue (2 * s.length + 2) s.toList with
  | some (v, rem) => if skipWs rem = [] then some v else none
  | none => none

/-- `dict.get(key, default)` on a parsed object: last binding wins, as in
the dict `json.loads` builds. -/
def getField (fields : List (String × Json)) (key : String) : Option Json :=
  (fields.reverse.find? (fun kv => decide (kv.1 = key))).map (·.2)

def getFieldD (fields : List (String × Json)) (key : String) (dflt : Json) : Json :=
  (getField fields key).getD dflt

/-- Observer: is this JSON value an object (a Python dict)? -/
def isObj : Json → Bool
  | obj _ => true
  | _ => false

end Json

/-! ## Deduplicator (processing/dedup.py) -/

namespace Deduplicator

/-- The `for article in new_articles` loop of `Deduplicator.deduplicate`
(dedup.py lines 45-59).  `existing_ids`/`existing_hashes` are the
pre-computed sets built from the existing articles; `seen_ids` and
`seen_hashes` accumulate the fingerprints of the articles accepted so
far in this pass. -/
def dedupLoop (existing_ids existing_hashes : List String) :
    List Article → List String → List String → List Article
  | [], _, _ => []
  | a :: rest, seen_ids, seen_hashes =>
    if a.id ∈ existing_ids ∨ a.id ∈ seen_ids then
      dedupLoop existing_ids existing_hashes rest seen_ids seen_hashes
    else if a.content_hash ≠ "" ∧
        (a.content_hash ∈ existing_hashes ∨ a.content_hash ∈ seen_hashes) then
      dedupLoop existing_ids existing_hashes rest seen_ids seen_hashes
    else
      a :: dedupLoop existing_ids existing_hashes rest (a.id :: seen_ids)
        (if a.content_hash ≠ "" then a.content_hash :: seen_hashes else seen_hashes)

/-- `Deduplicator.deduplicate` (dedup.py lines 18-61): early return on an
empty new-article list, then build `existing_ids = {a.id for a in existing}`
and `existing_hashes = {a.content_hash for a in existing if a.content_hash}`
and run the accept/reject loop. -/
def deduplicate (new_articles : List Article) (existing_articles : List Article) :
    List Article :=
  if new_articles = [] then []
  else
    dedupLoop (existing_articles.map (·.id))
      ((existing_articles.filter (fun a => decide (a.content_hash ≠ ""))).map (·.content_hash))
      new_articles [] []

/-- Two articles collide for deduplication purposes: `b` blocks `a` when they
share an id, or when `a` has a non-empty content hash equal to `b`'s. -/
def sharesDup (b a : Article) : Prop :=
  b.id = a.id ∨ (a.content_hash ≠ "" ∧ b.content_hash = a.content_hash)

instance : ∀ b a, Decidable (sharesDup b a) := fun _ _ => by
  unfold sharesDup; infer_instance

end Deduplicator

/-! ## JSON file store (storage/json_store.py) -/

namespace JsonStore

/-- `JsonStore.load` (json_store.py lines 39-49), for a store whose backing
file holds `contents` (`none` models a missing file).  `validateItem`
models `model_class.model_validate`, returning `none` where pydantic would
raise `ValidationError`.  `json.JSONDecodeError` and `KeyError` are caught
and yield `[]` (`dict.get` never actually raises `KeyError`); a parsed
document that is not a JSON object makes `data.get` raise
`AttributeError`, and a non-list `items` value or an invalid item raises
out of the list comprehension — none of those are caught. -/
def load {α : Type} (validateItem : Json → Option α) (contents : Option String) :
    PyResult (List α) :=
  match contents with
  | none => .ok []
  | some text =>
    match Json.parse text with
    | none => .ok []
    | some (Json.obj fields) =>
      match Json.getFieldD fields "items" (Json.arr []) with
      | Json.arr items =>
        match items.mapM validateItem with
        | some objs => .ok objs
        | none => .raised
      | _ => .raised
    | some _ => .raised

/-- `DatePartitionedStore.load` (json_store.py lines 118-120): delegate to
the `JsonStore` of the date's file.  `files` maps a partition date (integer
day number, standing for `YYYY-MM-DD.json`) to that file's contents. -/
def dpLoad {α : Type} (validateItem : Json → Option α)
    (files : Int → Option String) (d : Int) : PyResult (List α) :=
  load validateItem (files d)

end JsonStore

/-! ## Source manager (sources/manager.py) -/

namespace SourceManager

/-- `SourceManager.mark_fetched` (manager.py lines 98-101) as a registry
transformation: `update_source` looks up the FIRST source with the given
id, sets its `last_fetched` to now, and `JsonStore.update` writes it back
over that same first occurrence; an unknown id leaves the registry
unchanged. -/
def markFetched (sources : List Source) (source_id : String) (now : Time) :
    List Source :=
  match sources with
  | [] => []
  | s :: rest =>
    if s.id = source_id then { s with last_fetched := some now } :: rest
    else s :: markFetched rest source_id now

/-- `SourceManager.list_sources(enabled_only=True)` (manager.py lines 25-30). -/
def listEnabled (sources : List Source) : List Source :=
  sources.filter (·.enabled)

/-- `SourceManager.get_sources_to_fetch` (manager.py lines 103-106). -/
def getSourcesToFetch (sources : List Source) (now : Time) : List Source :=
  (listEnabled sources).filter (fun s => s.shouldFetch now)

end SourceManager

/-! ## Fetch orchestrator (fetchers/orchestrator.py)

`fetch_all` is modelled per invocation.  The cooperative concurrency of the
fan-out (semaphore-bounded `asyncio.gather`) is modelled by running the
per-source tasks to completion in task order: results are concatenated in
that order and the `mark_fetched` registry updates are applied in that
order; `now` stands for `datetime.utcnow()` throughout the invocation.
`fetch` gives each source's adapter result (adapters catch their own
errors and degrade to `[]`, so `fetch` is total). -/

namespace FetchOrchestrator

/-- Observable outcome of one `FetchOrchestrator.fetch_all` invocation. -/
structure FetchResult where
  returned : List Article
  sources : List Source
  todays : List Article
  storeWrites : List (List Article)
  deriving DecidableEq, Repr

/-- Source selection (orchestrator.py lines 61-69): an explicit list, else
all enabled sources under `force`, else the due sources. -/
def selectSources (registry : List Source) (sourcesArg : Option (List Source))
    (force : Bool) (now : Time) : List Source :=
  match sourcesArg with
  | some l => l
  | none =>
    if force then SourceManager.listEnabled registry
    else SourceManager.getSourcesToFetch registry now

/-- The flattened article batch (lines 82-91): per-source fetch results
concatenated in task order. -/
def fetchedBatch (fetch : Source → List Article) (selected : List Source) :
    List Article :=
  (selected.map fetch).flatten

/-- `FetchOrchestrator.fetch_all` (orchestrator.py lines 47-105):
select sources (early empty return), fetch and mark each selected source,
deduplicate the batch against today's stored articles, persist the union
only when something new survived, and return exactly the new articles. -/
def fetchAll (fetch : Source → List Article) (now : Time)
    (sourcesArg : Option (List Source)) (force : Bool)
    (registry : List Source) (todays : List Article) : FetchResult :=
  let selected := selectSources registry sourcesArg force now
  if selected = [] then
    { returned := [], sources := registry, todays := todays, storeWrites := [] }
  else
    let registry' :=
      selected.foldl (fun ss s => SourceManager.markFetched ss s.id now) registry
    let batch := fetchedBatch fetch selected
    let newArticles := Deduplicator.deduplicate batch todays
    if newArticles = [] then
      { returned := newArticles, sources := registry', todays := todays,
        storeWrites := [] }
    else
      { returned := newArticles, sources := registry',
        todays := todays ++ newArticles, storeWrites := [todays ++ newArticles] }

end FetchOrchestrator

/-! ## Summarizer (summarization/summarizer.py) -/

namespace Summarizer

/-- Python `str.strip()` default whitespace (space, TAB, LF, CR, VT, FF). -/
def isPyWs (c : Char) : Bool :=
  c = ' ' || c = '\t' || c = '\n' || c = '\r' || c = Char.ofNat 11 || c = Char.ofNat 12

/-- `str.strip()` on a character list. -/
def pyStripL (cs : List Char) : List Char :=
  ((cs.dropWhile isPyWs).reverse.dropWhile isPyWs).reverse

def pyStrip (s : String) : String := String.mk (pyStripL s.toList)

/-- The three-backtick fence marker. -/
def fenceChars : List Char := "```".toList

/-- Python `text.split("\n")`. -/
def pySplitNl : List Char → List (List Char)
  | [] => [[]]
  | c :: rest =>
    match pySplitNl rest with
    | [] => [[]]
    | line :: lines =>
      if c = '\n' then [] :: line :: lines else (c :: line) :: lines

/-- Python `"\n".join(lines)`. -/
def pyJoinNl (lines : List (List Char)) : List Char :=
  (List.intersperse ['\n'] lines).flatten

/-- The code-fence stripping of `_parse_response` (summarizer.py lines
137-143): after stripping, if the text starts with a fence, drop every
line that (stripped) starts with a fence, rejoin and strip again. -/
def stripCodeFences (response_text : String) : String :=
  let text := pyStripL response_text.toList
  if fenceChars.isPrefixOf text then
    let lines := pySplitNl text
    let lines := lines.filter (fun line => !(fenceChars.isPrefixOf (pyStripL line)))
    String.mk (pyStripL (pyJoinNl lines))
  else String.mk text

/-- pydantic (v2) `str` field validation: only actual strings pass. -/
def pyStr : Json → Option String
  | Json.str s => some s
  | _ => none

/-- pydantic (v2) `list[str]` field validation. -/
def pyStrList : Json → Option (List String)
  | Json.arr items => items.mapM pyStr
  | _ => none

/-- One iteration of `for story in data.get("notable_stories", [])`
(summarizer.py lines 149-157): `story.get` raises `AttributeError` unless
the element is a dict, and `NotableStory(...)` raises `ValidationError`
unless the four extracted values are strings (the defaults are `""`). -/
def parseStory : Json → Option NotableStory
  | Json.obj f => do
    let title ← pyStr (Json.getFieldD f "title" (Json.str ""))
    let source ← pyStr (Json.getFieldD f "source" (Json.str ""))
    let brief ← pyStr (Json.getFieldD f "brief" (Json.str ""))
    let url ← pyStr (Json.getFieldD f "url" (Json.str ""))
    some { title := title, source := source, brief := brief, url := url }
  | _ => none

/-- `Summarizer._parse_response` (summarizer.py lines 128-183).  Only
`json.JSONDecodeError` is caught (yielding the raw-text fallback record);
the success branch's own failures — `data.get` on a non-dict
(`AttributeError`), iterating a non-list (`TypeError`), pydantic
`ValidationError` on non-string fields — propagate, modelled by
`.raised`. -/
def parseResponse (response_text : String) (articles : List Article)
    (target_date : Int) (tokens_used : Int) (genTime : Time) (model : String) :
    PyResult DailySummary :=
  let text := stripCodeFences response_text
  match Json.parse text with
  | none =>
    .ok { date := target_date, generated_at := genTime,
          article_count := (articles.length : Int),
          article_ids := articles.map (·.id), summary_text := response_text,
          key_topics := [], notable_stories := [], model_used := model,
          tokens_used := some tokens_used }
  | some (Json.obj fields) =>
    match Json.getFieldD fields "notable_stories" (Json.arr []) with
    | Json.arr storyList =>
      match storyList.mapM parseStory with
      | none => .raised
      | some stories =>
        let summaryText : Option String :=
          match Json.getField fields "summary" with
          | none => some response_text
          | some j => pyStr j
        match summaryText, pyStrList (Json.getFieldD fields "key_topics" (Json.arr [])) with
        | some st, some tp =>
          .ok { date := target_date, generated_at := genTime,
                article_count := (articles.length : Int),
                article_ids := articles.map (·.id), summary_text := st,
                key_topics := tp, notable_stories := stories,
                model_used := model, tokens_used := some tokens_used }
        | _, _ => .raised
    | _ => .raised
  | some _ => .raised

/-- Recency key of the article cap (line 84): `a.published_at or
a.fetched_at` (a `datetime` is always truthy, so `or` is a null
fallback). -/
def recencyKey (a : Article) : Time := a.published_at.getD a.fetched_at

/-- `sorted(articles, key=recencyKey, reverse=True)` (line 82-86): a stable
sort by recency key descending, modelled by `mergeSort`. -/
def sortedByRecency (articles : List Article) : List Article :=
  articles.mergeSort (fun a b => decide (recencyKey b ≤ recencyKey a))

/-- Lines 80-86: when more than `cap` articles, keep the first `cap` of the
recency-descending sort. -/
def limitArticles (cap : ℕ) (articles : List Article) : List Article :=
  if articles.length > cap then (sortedByRecency articles).take cap
  else articles

/-- `Settings.max_articles_per_summary` default (config.py line 48-51). -/
def defaultMaxArticlesPerSummary : ℕ := 50

/-- The per-article block of `_build_prompt` (summarizer.py lines 111-124);
`datetime.isoformat()` is modelled as `toString` of the timestamp. -/
def articlePromptParts (i : ℕ) (a : Article) : List String :=
  ["--- Article " ++ toString i ++ " ---",
   "Title: " ++ a.title,
   "Source: " ++ a.source_id,
   "URL: " ++ a.url] ++
  (match a.published_at with
   | some t => ["Published: " ++ toString t]
   | none => []) ++
  (if a.content ≠ "" then
    ["Content: " ++
      (a.content.take 2000 ++ if a.content.length > 2000 then "..." else "")]
   else []) ++
  [""]

/-- `Summarizer._build_prompt` (summarizer.py lines 105-126). -/
def buildPrompt (articles : List Article) : String :=
  let headParts :=
    ["Please summarize the following " ++ toString articles.length ++
      " AI news articles from today:\n\n"]
  let parts := headParts ++
    ((List.enumFrom 1 articles).map (fun p => articlePromptParts p.1 p.2)).flatten
  String.intercalate "\n" parts

/-- The fixed system instruction (summarizer.py lines 12-35); its literal
text is irrelevant to every verified property and is abbreviated. -/
def SYSTEM_PROMPT : String := "You are an AI news summarizer."

/-- Observable outcome of one `Summarizer.generate_summary` invocation. -/
structure SummaryRun where
  result : PyResult (Option DailySummary)
  clientRequests : List (String × String)
  summaryWrites : List (Int × List DailySummary)
  deriving DecidableEq, Repr

/-- `Summarizer.generate_summary` (summarizer.py lines 55-103):
`storedArticles` is what `article_store.load(target_date)` holds,
`articlesArg` the optional explicit list, `response`/`tokensUsed` what
`self.client.generate` would return if called.  On empty articles: return
`None`, no client request, no summary write. -/
def generateSummary (maxArticles : ℕ) (storedArticles : List Article)
    (articlesArg : Option (List Article)) (targetDate : Int)
    (response : String) (tokensUsed : Int) (genTime : Time) (model : String) :
    SummaryRun :=
  let articles :=
    match articlesArg with
    | some l => l
    | none => storedArticles
  if articles = [] then
    { result := .ok none, clientRequests := [], summaryWrites := [] }
  else
    let articles := limitArticles maxArticles articles
    let prompt := buildPrompt articles
    match parseResponse response articles targetDate tokensUsed genTime model with
    | .raised =>
      { result := .raised, clientRequests := [(prompt, SYSTEM_PROMPT)],
        summaryWrites := [] }
    | .ok summary =>
      { result := .ok (some summary), clientRequests := [(prompt, SYSTEM_PROMPT)],
        summaryWrites := [(targetDate, [summary])] }

end Summarizer

/-! ## Web scraper (fetchers/scraper.py) -/

namespace WebScraper

/-- The anchor `element.find("a", href=True)` returns: its `href` attribute
value and its stripped text. -/
structure ScrapedLink where
  href : String
  text : String
  deriving DecidableEq, Repr

/-- What `_parse_element` observes of a BeautifulSoup element through the
library queries it makes (the HTML query engine itself is the out-of-scope
extraction library). -/
structure ScrapedElement where
  link : Option ScrapedLink
  headingText : Option String
  summaryText : Option String
  pText : Option String
  deriving DecidableEq, Repr

/-- Python `s.startswith(pre)`. -/
def strStarts (pre s : String) : Bool := pre.toList.isPrefixOf s.toList

/-- Split an absolute URL's characters at the first `://`, yielding the
scheme and the rest. -/
def splitScheme : List Char → Option (List Char × List Char)
  | [] => none
  | ':' :: '/' :: '/' :: rest => some ([], rest)
  | c :: rest =>
    match splitScheme rest with
    | none => none
    | some (scheme, tail) => some (c :: scheme, tail)

/-- `urllib.parse.urljoin(base, url)` modelled for the only case the
scraper uses: `url` starting with `/`, against an absolute http(s) base.
A network-path reference `//host/...` takes the base's scheme; a path
`/...` takes the base's scheme and authority. -/
def urljoinSlash (base url : String) : String :=
  match splitScheme base.toList with
  | none => url
  | some (scheme, rest) =>
    if strStarts "//" url then String.mk (scheme ++ ':' :: url.toList)
    else
      String.mk (scheme ++ "://".toList ++
        rest.takeWhile (fun c => c ≠ '/') ++ url.toList)

/-- `WebScraper._parse_element` (scraper.py lines 57-110).  `genId` and
`genHash` model `Article.generate_id` / `Article.generate_content_hash`
(opaque deterministic URL/content fingerprints).  pydantic's `HttpUrl`
validation on `Article.url` is modelled as an http(s)-scheme check; its
failure raises inside the `Article(...)` constructor and is swallowed by
the `except Exception` that skips the element. -/
def parseElement (genId genHash : String → String)
    (element : ScrapedElement) (source : Source) (now : Time) : Option Article :=
  match element.link with
  | none => none
  | some link =>
    if link.href = "" then none
    else
      let url :=
        if strStarts "/" link.href then urljoinSlash source.url link.href
        else link.href
      let title := link.text
      let title :=
        if title = "" then
          match element.headingText with
          | some h => h
          | none => title
        else title
      if title = "" then none
      else
        let content :=
          match element.summaryText with
          | some t => t
          | none =>
            match element.pText with
            | some t => t
            | none => ""
        if strStarts "http://" url || strStarts "https://" url then
          some { id := genId url, title := title, url := url,
                 source_id := source.id, published_at := none,
                 fetched_at := now, content := content, summary := none,
                 content_hash := if content ≠ "" then genHash content else "",
                 tags := source.tags }
        else none

end WebScraper

/-! ## Spec-stated comparison definitions and concrete sample data
(used by counterexamples and witnesses). -/

namespace Claims

open Deduplicator

/-- Helper loop for `specStatedInternalDedup`: keep an article iff it shares
no fingerprint with ANY earlier article of the input (kept or not). -/
def specStatedLoop : List Article → List Article → List Article
  | _, [] => []
  | earlier, a :: rest =>
    if earlier.any (fun b => decide (sharesDup b a)) then
      specStatedLoop (earlier ++ [a]) rest
    else
      a :: specStatedLoop (earlier ++ [a]) rest

/-- Written from claim C8's own words (NOT from the source, for comparison
against `deduplicate`): remove exactly those articles that share an id or a
non-empty content hash with an earlier article of `A`, kept or not. -/
def specStatedInternalDedup (A : List Article) : List Article :=
  specStatedLoop [] A

/-- Concrete articles used by witnesses and counterexamples. -/
def artK : Article := { id := "id-k", fetched_at := 0, content_hash := "hash-k" }

def artL : Article := { id := "id-l", fetched_at := 0, content_hash := "hash-l" }

/-- Concrete articles exhibiting the gap between claim C8 and the code:
`artP2` is rejected for repeating `artP1`'s id, so its content hash is never
registered, and `artP3` — which duplicates only `artP2`'s content hash — is
kept by the code although it shares a fingerprint with an earlier article. -/
def artP1 : Article := { id := "id-p1", fetched_at := 0, content_hash := "hash-p1" }

def artP2 : Article := { id := "id-p1", fetched_at := 0, content_hash := "hash-p2" }

def artP3 : Article := { id := "id-p3", fetched_at := 0, content_hash := "hash-p2" }

/-- A source with a 24-hour interval last fetched at time 0. -/
def src24 : Source := { id := "src-a", last_fetched := some 0 }

/-- File maps for the store witnesses: a missing partition file, and one
whose contents are not valid JSON. -/
def filesMissing : Int → Option String := fun _ => none

def filesCorrupt : Int → Option String := fun _ => some "not valid json"

/-- Sixty articles with distinct fetch times, for the article-cap witness. -/
def arts60 : List Article :=
  (List.range 60).map (fun i => { id := toString i, fetched_at := (i : ℚ) })

/-- A scraped element with no hyperlink at all. -/
def elemNoLink : WebScraper.ScrapedElement :=
  { link := none, headingText := some "Heading", summaryText := none,
    pText := none }

/-- A scraped element carrying a root-relative hyperlink. -/
def elemRel : WebScraper.ScrapedElement :=
  { link := some { href := "/news/item", text := "Item title" },
    headingText := none, summaryText := some "A summary", pText := none }

/-- A web source used with the scraped elements. -/
def srcWeb : Source :=
  { id := "web-src", url := "https://example.com/page", source_type := .web }

end Claims

/-! ## MODELS-END marker: remaining model definitions are inserted above,
all theorems below. -/

namespace Deduplicator

theorem sharesDup_refl (a : Article) : sharesDup a a := Or.inl rfl

/-- Every article produced by the loop avoids the pre-existing fingerprint
sets (and the initial seen sets). -/
theorem dedupLoop_avoids (eids ehs : List String) :
    ∀ (L : List Article) (sids shs : List String) (a : Article),
      a ∈ dedupLoop eids ehs L sids shs →
      (a.id ∉ eids ∧ a.id ∉ sids) ∧
        (a.content_hash ≠ "" → a.content_hash ∉ ehs ∧ a.content_hash ∉ shs) := by
  intro L
  induction L with
  | nil => intro sids shs a h; simp [dedupLoop] at h
  | cons b rest ih =>
    intro sids shs a h
    rw [dedupLoop] at h
    by_cases h1 : b.id ∈ eids ∨ b.id ∈ sids
    · rw [if_pos h1] at h
      exact ih _ _ _ h
    · rw [if_neg h1] at h
      by_cases h2 : b.content_hash ≠ "" ∧ (b.content_hash ∈ ehs ∨ b.content_hash ∈ shs)
      · rw [if_pos h2] at h
        exact ih _ _ _ h
      · rw [if_neg h2] at h
        rcases List.mem_cons.mp h with rfl | h
        · push_neg at h1 h2
          exact ⟨⟨h1.1, h1.2⟩, fun hne => ⟨(h2 hne).1, (h2 hne).2⟩⟩
        · have := ih _ _ _ h
          refine ⟨⟨this.1.1, ?_⟩, fun hne => ⟨(this.2 hne).1, ?_⟩⟩
          · have := this.1.2
            simp only [List.mem_cons] at this
            exact fun hmem => this (Or.inr hmem)
          · have h3 := (this.2 hne).2
            by_cases hb : b.content_hash ≠ ""
            · rw [if_pos hb] at h3
              simp only [List.mem_cons] at h3
              exact fun hmem => h3 (Or.inr hmem)
            · rw [if_neg hb] at h3
              exact h3

/-- The loop returns a sublist of its input: output order is input order. -/
theorem dedupLoop_sublist (eids ehs : List String) :
    ∀ (L : List Article) (sids shs : List String),
      (dedupLoop eids ehs L sids shs).Sublist L := by
  intro L
  induction L with
  | nil => intro sids shs; simp [dedupLoop]
  | cons b rest ih =>
    intro sids shs
    rw [dedupLoop]
    by_cases h1 : b.id ∈ eids ∨ b.id ∈ sids
    · rw [if_pos h1]; exact (ih _ _).cons b
    · rw [if_neg h1]
      by_cases h2 : b.content_hash ≠ "" ∧
          (b.content_hash ∈ ehs ∨ b.content_hash ∈ shs)
      · rw [if_pos h2]; exact (ih _ _).cons b
      · rw [if_neg h2]; exact (ih _ _).cons₂ b

/-- Keep direction: an article whose fingerprints avoid the existing sets,
the initial seen sets, and every earlier article of the batch, is accepted. -/
theorem dedupLoop_complete (eids ehs : List String) :
    ∀ (p : List Article) (a : Article) (s : List Article) (sids shs : List String),
      a.id ∉ eids → a.id ∉ sids →
      (a.content_hash ≠ "" → a.content_hash ∉ ehs ∧ a.content_hash ∉ shs) →
      (∀ b ∈ p, ¬ sharesDup b a) →
      a ∈ dedupLoop eids ehs (p ++ a :: s) sids shs := by
  intro p
  induction p with
  | nil =>
    intro a s sids shs h1 h2 h3 _
    rw [List.nil_append, dedupLoop]
    rw [if_neg (by push_neg; exact ⟨h1, h2⟩)]
    rw [if_neg (by rintro ⟨hne, hc⟩; rcases hc with hc | hc
                   · exact (h3 hne).1 hc
                   · exact (h3 hne).2 hc)]
    exact List.mem_cons_self a _
  | cons b p ih =>
    intro a s sids shs h1 h2 h3 hp
    have hba : ¬ sharesDup b a := hp b (List.mem_cons_self b p)
    have hrest : ∀ c ∈ p, ¬ sharesDup c a := fun c hc => hp c (List.mem_cons_of_mem b hc)
    rw [List.cons_append, dedupLoop]
    by_cases hb1 : b.id ∈ eids ∨ b.id ∈ sids
    · rw [if_pos hb1]; exact ih a s sids shs h1 h2 h3 hrest
    · rw [if_neg hb1]
      by_cases hb2 : b.content_hash ≠ "" ∧
          (b.content_hash ∈ ehs ∨ b.content_hash ∈ shs)
      · rw [if_pos hb2]; exact ih a s sids shs h1 h2 h3 hrest
      · rw [if_neg hb2]
        refine List.mem_cons_of_mem b (ih a s _ _ h1 ?_ ?_ hrest)
        · intro hmem
          rcases List.mem_cons.mp hmem with heq | hmem
          · exact hba (Or.inl heq.symm)
          · exact h2 hmem
        · intro hne
          refine ⟨(h3 hne).1, ?_⟩
          by_cases hbch : b.content_hash ≠ ""
          · rw [if_pos hbch]
            intro hmem
            rcases List.mem_cons.mp hmem with heq | hmem
            · exact hba (Or.inr ⟨hne, heq.symm⟩)
            · exact (h3 hne).2 hmem
          · rw [if_neg hbch]
            exact (h3 hne).2

/-- Removal direction: an occurrence of `a` that does not make it into the
output was blocked by the existing sets, the initial seen sets, or some
earlier article of the batch. -/
theorem dedupLoop_sound (eids ehs : List String) :
    ∀ (p : List Article) (a : Article) (s : List Article) (sids shs : List String),
      a ∉ dedupLoop eids ehs (p ++ a :: s) sids shs →
      a.id ∈ eids ∨ a.id ∈ sids ∨
        (a.content_hash ≠ "" ∧ (a.content_hash ∈ ehs ∨ a.content_hash ∈ shs)) ∨
        ∃ b ∈ p, sharesDup b a := by
  intro p
  induction p with
  | nil =>
    intro a s sids shs h
    rw [List.nil_append, dedupLoop] at h
    by_cases h1 : a.id ∈ eids ∨ a.id ∈ sids
    · rcases h1 with h1 | h1
      · exact Or.inl h1
      · exact Or.inr (Or.inl h1)
    · rw [if_neg h1] at h
      by_cases h2 : a.content_hash ≠ "" ∧
          (a.content_hash ∈ ehs ∨ a.content_hash ∈ shs)
      · exact Or.inr (Or.inr (Or.inl h2))
      · rw [if_neg h2] at h
        exact absurd (List.mem_cons_self a _) h
  | cons b p ih =>
    intro a s sids shs h
    rw [List.cons_append, dedupLoop] at h
    by_cases hb1 : b.id ∈ eids ∨ b.id ∈ sids
    · rw [if_pos hb1] at h
      rcases ih a s sids shs h with h' | h' | h' | ⟨c, hc, hshare⟩
      · exact Or.inl h'
      · exact Or.inr (Or.inl h')
      · exact Or.inr (Or.inr (Or.inl h'))
      · exact Or.inr (Or.inr (Or.inr ⟨c, List.mem_cons_of_mem b hc, hshare⟩))
    · rw [if_neg hb1] at h
      by_cases hb2 : b.content_hash ≠ "" ∧
          (b.content_hash ∈ ehs ∨ b.content_hash ∈ shs)
      · rw [if_pos hb2] at h
        rcases ih a s sids shs h with h' | h' | h' | ⟨c, hc, hshare⟩
        · exact Or.inl h'
        · exact Or.inr (Or.inl h')
        · exact Or.inr (Or.inr (Or.inl h'))
        · exact Or.inr (Or.inr (Or.inr ⟨c, List.mem_cons_of_mem b hc, hshare⟩))
      · rw [if_neg hb2] at h
        have h' : a ∉ dedupLoop eids ehs (p ++ a :: s) (b.id :: sids)
            (if b.content_hash ≠ "" then b.content_hash :: shs else shs) :=
          fun hmem => h (List.mem_cons_of_mem b hmem)
        rcases ih a s _ _ h' with h'' | h'' | ⟨hne, h''⟩ | ⟨c, hc, hshare⟩
        · exact Or.inl h''
        · rcases List.mem_cons.mp h'' with heq | hmem
          · exact Or.inr (Or.inr (Or.inr
              ⟨b, List.mem_cons_self b p, Or.inl heq.symm⟩))
          · exact Or.inr (Or.inl hmem)
        · rcases h'' with h'' | h''
          · exact Or.inr (Or.inr (Or.inl ⟨hne, Or.inl h''⟩))
          · by_cases hbch : b.content_hash ≠ ""
            · rw [if_pos hbch] at h''
              rcases List.mem_cons.mp h'' with heq | hmem
              · exact Or.inr (Or.inr (Or.inr
                  ⟨b, List.mem_cons_self b p, Or.inr ⟨hne, heq.symm⟩⟩))
              · exact Or.inr (Or.inr (Or.inl ⟨hne, Or.inr hmem⟩))
            · rw [if_neg hbch] at h''
              exact Or.inr (Or.inr (Or.inl ⟨hne, Or.inr h''⟩))
        · exact Or.inr (Or.inr (Or.inr ⟨c, List.mem_cons_of_mem b hc, hshare⟩))

/-- Every batch article is blocked by (shares a fingerprint with) something
in the output, or was blocked by the existing/initial fingerprint sets. -/
theorem dedupLoop_blocked (eids ehs : List String) :
    ∀ (L : List Article) (sids shs : List String) (a : Article), a ∈ L →
      (∃ b ∈ dedupLoop eids ehs L sids shs, sharesDup b a) ∨
        a.id ∈ eids ∨ a.id ∈ sids ∨
        (a.content_hash ≠ "" ∧ (a.content_hash ∈ ehs ∨ a.content_hash ∈ shs)) := by
  intro L
  induction L with
  | nil => intro _ _ a ha; exact absurd ha (List.not_mem_nil a)
  | cons c rest ih =>
    intro sids shs a ha
    rw [dedupLoop]
    by_cases hc1 : c.id ∈ eids ∨ c.id ∈ sids
    · rw [if_pos hc1]
      rcases List.mem_cons.mp ha with rfl | ha'
      · rcases hc1 with h | h
        · exact Or.inr (Or.inl h)
        · exact Or.inr (Or.inr (Or.inl h))
      · exact ih sids shs a ha'
    · rw [if_neg hc1]
      by_cases hc2 : c.content_hash ≠ "" ∧
          (c.content_hash ∈ ehs ∨ c.content_hash ∈ shs)
      · rw [if_pos hc2]
        rcases List.mem_cons.mp ha with rfl | ha'
        · exact Or.inr (Or.inr (Or.inr hc2))
        · exact ih sids shs a ha'
      · rw [if_neg hc2]
        rcases List.mem_cons.mp ha with rfl | ha'
        · exact Or.inl ⟨a, List.mem_cons_self a _, sharesDup_refl a⟩
        · rcases ih (c.id :: sids)
            (if c.content_hash ≠ "" then c.content_hash :: shs else shs) a ha' with
            ⟨b, hb, hshare⟩ | h | h | ⟨hne, h⟩
          · exact Or.inl ⟨b, List.mem_cons_of_mem c hb, hshare⟩
          · exact Or.inr (Or.inl h)
          · rcases List.mem_cons.mp h with heq | hmem
            · exact Or.inl ⟨c, List.mem_cons_self c _, Or.inl heq.symm⟩
            · exact Or.inr (Or.inr (Or.inl hmem))
          · rcases h with h | h
            · exact Or.inr (Or.inr (Or.inr ⟨hne, Or.inl h⟩))
            · by_cases hcch : c.content_hash ≠ ""
              · rw [if_pos hcch] at h
                rcases List.mem_cons.mp h with heq | hmem
                · exact Or.inl ⟨c, List.mem_cons_self c _, Or.inr ⟨hne, heq.symm⟩⟩
                · exact Or.inr (Or.inr (Or.inr ⟨hne, Or.inr hmem⟩))
              · rw [if_neg hcch] at h
                exact Or.inr (Or.inr (Or.inr ⟨hne, Or.inr h⟩))

/-- If every batch article already collides with the existing fingerprint
sets, the loop accepts nothing. -/
theorem dedupLoop_eq_nil (eids ehs : List String) :
    ∀ (L : List Article) (sids shs : List String),
      (∀ a ∈ L, a.id ∈ eids ∨ (a.content_hash ≠ "" ∧ a.content_hash ∈ ehs)) →
      dedupLoop eids ehs L sids shs = [] := by
  intro L
  induction L with
  | nil => intro _ _ _; rw [dedupLoop]
  | cons c rest ih =>
    intro sids shs h
    rw [dedupLoop]
    by_cases h1 : c.id ∈ eids ∨ c.id ∈ sids
    · rw [if_pos h1]
      exact ih sids shs fun a ha => h a (List.mem_cons_of_mem c ha)
    · rw [if_neg h1]
      rcases h c (List.mem_cons_self c rest) with hc | ⟨hne, hc⟩
      · exact absurd (Or.inl hc) h1
      · rw [if_pos ⟨hne, Or.inl hc⟩]
        exact ih sids shs fun a ha => h a (List.mem_cons_of_mem c ha)

/-- The output of `deduplicate` is a sublist of the new-article batch. -/
theorem deduplicate_sublist (A E : List Article) : (deduplicate A E).Sublist A := by
  unfold deduplicate
  by_cases h : A = []
  · rw [if_pos h]; exact h ▸ List.Sublist.refl []
  · rw [if_neg h]; exact dedupLoop_sublist _ _ A [] []

/-- Every batch article shares a fingerprint with some article of
`E ++ deduplicate A E` (itself, if it was accepted). -/
theorem deduplicate_blocked (A E : List Article) (a : Article) (ha : a ∈ A) :
    ∃ b ∈ E ++ deduplicate A E, sharesDup b a := by
  have hA : A ≠ [] := List.ne_nil_of_mem ha
  unfold deduplicate
  rw [if_neg hA]
  rcases dedupLoop_blocked (E.map (·.id))
      ((E.filter (fun x => decide (x.content_hash ≠ ""))).map (·.content_hash))
      A [] [] a ha with ⟨b, hb, hshare⟩ | h | h | ⟨hne, h | h⟩
  · exact ⟨b, List.mem_append_right E hb, hshare⟩
  · rcases List.mem_map.mp h with ⟨b, hb, hid⟩
    exact ⟨b, List.mem_append_left _ hb, Or.inl hid⟩
  · exact absurd h (List.not_mem_nil _)
  · rcases List.mem_map.mp h with ⟨b, hb, hch⟩
    exact ⟨b, List.mem_append_left _ (List.mem_filter.mp hb).1, Or.inr ⟨hne, hch⟩⟩
  · exact absurd h (List.not_mem_nil _)

/-- If every batch article collides with an existing article, nothing new
survives deduplication. -/
theorem deduplicate_eq_nil (A E : List Article)
    (h : ∀ a ∈ A, ∃ b ∈ E, sharesDup b a) : deduplicate A E = [] := by
  unfold deduplicate
  by_cases hA : A = []
  · rw [if_pos hA]
  · rw [if_neg hA]
    refine dedupLoop_eq_nil _ _ A [] [] fun a ha => ?_
    rcases h a ha with ⟨b, hb, hid | ⟨hne, hch⟩⟩
    · exact Or.inl (List.mem_map.mpr ⟨b, hb, hid⟩)
    · refine Or.inr ⟨hne, List.mem_map.mpr ⟨b, List.mem_filter.mpr ⟨hb, ?_⟩, hch⟩⟩
      rw [hch]
      exact decide_eq_true hne

end Deduplicator

namespace SourceManager

/-- Membership in a marked registry: every entry is an original entry, or
an original entry with the matching id whose `last_fetched` was set. -/
theorem mem_markFetched (ss : List Source) (i : String) (now : Time)
    (s' : Source) (h : s' ∈ markFetched ss i now) :
    ∃ s ∈ ss, s' = s ∨
      (s' = { s with last_fetched := some now } ∧ s.id = i) := by
  induction ss with
  | nil => rw [markFetched] at h; exact absurd h (List.not_mem_nil s')
  | cons s rest ih =>
    rw [markFetched] at h
    by_cases hid : s.id = i
    · rw [if_pos hid] at h
      rcases List.mem_cons.mp h with rfl | hmem
      · exact ⟨s, List.mem_cons_self s rest, Or.inr ⟨rfl, hid⟩⟩
      · exact ⟨s', List.mem_cons_of_mem s hmem, Or.inl rfl⟩
    · rw [if_neg hid] at h
      rcases List.mem_cons.mp h with rfl | hmem
      · exact ⟨s', List.mem_cons_self s' rest, Or.inl rfl⟩
      · rcases ih hmem with ⟨s0, hs0, hcase⟩
        exact ⟨s0, List.mem_cons_of_mem s hs0, hcase⟩

/-- Membership after folding `mark_fetched` over a task list `ds`: every
entry of the resulting registry is an original entry, possibly with its
`last_fetched` set to now when its id is among the marked ids. -/
theorem mem_foldl_markFetched (now : Time) :
    ∀ (ds ss : List Source) (s' : Source),
      s' ∈ ds.foldl (fun acc d => markFetched acc d.id now) ss →
      ∃ s ∈ ss, s' = s ∨
        (s' = { s with last_fetched := some now } ∧ s.id ∈ ds.map (·.id)) := by
  intro ds
  induction ds with
  | nil => intro ss s' h; exact ⟨s', h, Or.inl rfl⟩
  | cons d ds ih =>
    intro ss s' h
    rw [List.foldl_cons] at h
    rcases ih (markFetched ss d.id now) s' h with ⟨t, ht, hcase⟩
    rcases mem_markFetched ss d.id now t ht with ⟨s, hs, hcase2⟩
    rcases hcase with h1 | ⟨h1, htid⟩
    · rcases hcase2 with h2 | ⟨h2, hsid⟩
      · exact ⟨s, hs, Or.inl (h1.trans h2)⟩
      · exact ⟨s, hs, Or.inr ⟨h1.trans h2, List.mem_cons.mpr (Or.inl hsid)⟩⟩
    · rcases hcase2 with h2 | ⟨h2, hsid⟩
      · have hmark : s' = { s with last_fetched := some now } := by rw [h1, h2]
        have hid : s.id ∈ (d :: ds).map (·.id) := by
          refine List.mem_cons.mpr (Or.inr ?_)
          have hts : t.id = s.id := by rw [h2]
          rwa [hts] at htid
        exact ⟨s, hs, Or.inr ⟨hmark, hid⟩⟩
      · have hmark : s' = { s with last_fetched := some now } := by rw [h1, h2]
        have hid : s.id ∈ (d :: ds).map (·.id) := by
          refine List.mem_cons.mpr (Or.inr ?_)
          have hts : t.id = s.id := by rw [h2]
          rwa [hts] at htid
        exact ⟨s, hs, Or.inr ⟨hmark, hid⟩⟩

/-- Membership in the due-source list. -/
theorem mem_getSourcesToFetch (ss : List Source) (now : Time) (s : Source) :
    s ∈ getSourcesToFetch ss now ↔
      s ∈ ss ∧ s.enabled = true ∧ s.shouldFetch now = true := by
  unfold getSourcesToFetch listEnabled
  simp only [List.mem_filter, and_assoc]

end SourceManager

namespace FetchOrchestrator

/-- Membership in the flattened batch. -/
theorem mem_fetchedBatch (fetch : Source → List Article) (L : List Source)
    (a : Article) :
    a ∈ fetchedBatch fetch L ↔ ∃ s ∈ L, a ∈ fetch s := by
  unfold fetchedBatch
  simp only [List.mem_flatten, List.mem_map]
  constructor
  · rintro ⟨l, ⟨s, hs, rfl⟩, hal⟩
    exact ⟨s, hs, hal⟩
  · rintro ⟨s, hs, hal⟩
    exact ⟨fetch s, ⟨s, hs, rfl⟩, hal⟩

end FetchOrchestrator

/-! ## Claim C1 -/

namespace Claims

open Deduplicator

/-- C1: for all lists `A`, `B`, every article returned by
`Deduplicator.deduplicate(A, B)` has an id different from the id of every
article of `B`, and, when its content hash is non-empty, a content hash
different from the content hash of every article of `B`. -/
theorem C1_deduplicate_excludes_existing (A B : List Article) (a : Article)
    (ha : a ∈ deduplicate A B) :
    ∀ b ∈ B, a.id ≠ b.id ∧ (a.content_hash ≠ "" → a.content_hash ≠ b.content_hash) := by
  intro b hb
  have h : a ∈ dedupLoop (B.map (·.id))
      ((B.filter (fun x => decide (x.content_hash ≠ ""))).map (·.content_hash))
      A [] [] := by
    unfold deduplicate at ha
    by_cases hA : A = []
    · rw [if_pos hA] at ha; exact absurd ha (List.not_mem_nil a)
    · rwa [if_neg hA] at ha
  have havoid := dedupLoop_avoids _ _ A [] [] a h
  constructor
  · intro heq
    exact havoid.1.1 (List.mem_map.mpr ⟨b, hb, heq.symm⟩)
  · intro hne heq
    refine (havoid.2 hne).1 (List.mem_map.mpr ⟨b, List.mem_filter.mpr ⟨hb, ?_⟩, heq.symm⟩)
    rw [← heq]
    exact decide_eq_true hne

theorem C1_witness :
    artK.id ≠ artL.id ∧
      (artK.content_hash ≠ "" → artK.content_hash ≠ artL.content_hash) :=
  C1_deduplicate_excludes_existing [artK] [artL] artK (by decide) artL
    (List.mem_cons_self artL [])

/-! ## Claim C8 -/

/-- C8 counterexample: on `A = [artP1, artP2, artP3]` the code keeps
`artP3` even though it shares its (non-empty) content hash with the earlier
article `artP2`, so `deduplicate A []` differs from the filter the claim
describes. -/
theorem C8_counterexample :
    Deduplicator.deduplicate [artP1, artP2, artP3] [] ≠
        specStatedInternalDedup [artP1, artP2, artP3] ∧
      artP3 ∈ Deduplicator.deduplicate [artP1, artP2, artP3] [] ∧
      Deduplicator.sharesDup artP2 artP3 := by
  refine ⟨by decide, by decide, by decide⟩

/-- C8 (amended): `deduplicate A []` is a subsequence of `A` in
first-occurrence order; every article sharing no id or non-empty content
hash with ANY earlier article of `A` is kept; and every removed occurrence
shares an id or non-empty content hash with SOME earlier article of `A`
(the converse — every such sharing occurrence is removed — is exactly what
`C8_counterexample` refutes: fingerprints of rejected articles are not
registered). -/
theorem C8_internal_dedup (A p s : List Article) (a : Article)
    (h : A = p ++ a :: s) :
    (Deduplicator.deduplicate A []).Sublist A ∧
      ((∀ b ∈ p, ¬ Deduplicator.sharesDup b a) →
        a ∈ Deduplicator.deduplicate A []) ∧
      (a ∉ Deduplicator.deduplicate A [] →
        ∃ b ∈ p, Deduplicator.sharesDup b a) := by
  have hA : A ≠ [] := by rw [h]; exact List.append_ne_nil_of_right_ne_nil p (by simp)
  refine ⟨Deduplicator.deduplicate_sublist A [], ?_, ?_⟩
  · intro hp
    unfold Deduplicator.deduplicate
    rw [if_neg hA, h]
    simpa using Deduplicator.dedupLoop_complete [] [] p a s [] []
      (List.not_mem_nil _) (List.not_mem_nil _)
      (fun _ => ⟨List.not_mem_nil _, List.not_mem_nil _⟩) hp
  · intro hmem
    unfold Deduplicator.deduplicate at hmem
    rw [if_neg hA, h] at hmem
    rcases Deduplicator.dedupLoop_sound [] [] p a s [] [] (by simpa using hmem) with
      h' | h' | ⟨_, h' | h'⟩ | h'
    · exact absurd h' (List.not_mem_nil _)
    · exact absurd h' (List.not_mem_nil _)
    · exact absurd h' (List.not_mem_nil _)
    · exact absurd h' (List.not_mem_nil _)
    · exact h'

theorem C8_witness :
    artK ∈ Deduplicator.deduplicate [artL, artK] [] :=
  (C8_internal_dedup [artL, artK] [artL] [] artK rfl).2.1 (by decide)

/-! ## Claim C5 -/

/-- Field characterization of one `fetch_all` invocation (helper shared by
the frame and idempotence claims): the returned list is the deduplicated
batch of the selected sources; the registry is the fold of per-source
`mark_fetched` updates; the stored partition is extended by exactly the
returned articles; a write happens iff something new survived, and then
writes exactly the union. -/
theorem fetchAll_fields (fetch : Source → List Article) (now : Time)
    (sourcesArg : Option (List Source)) (force : Bool)
    (registry : List Source) (todays : List Article) :
    (FetchOrchestrator.fetchAll fetch now sourcesArg force registry todays).returned =
      Deduplicator.deduplicate
        (FetchOrchestrator.fetchedBatch fetch
          (FetchOrchestrator.selectSources registry sourcesArg force now)) todays ∧
    (FetchOrchestrator.fetchAll fetch now sourcesArg force registry todays).sources =
      (FetchOrchestrator.selectSources registry sourcesArg force now).foldl
        (fun ss s => SourceManager.markFetched ss s.id now) registry ∧
    (FetchOrchestrator.fetchAll fetch now sourcesArg force registry todays).todays =
      todays ++
        (FetchOrchestrator.fetchAll fetch now sourcesArg force registry todays).returned ∧
    ((FetchOrchestrator.fetchAll fetch now sourcesArg force registry todays).returned = [] →
      (FetchOrchestrator.fetchAll fetch now sourcesArg force registry todays).storeWrites = []) ∧
    ((FetchOrchestrator.fetchAll fetch now sourcesArg force registry todays).returned ≠ [] →
      (FetchOrchestrator.fetchAll fetch now sourcesArg force registry todays).storeWrites =
        [todays ++
          (FetchOrchestrator.fetchAll fetch now sourcesArg force registry todays).returned]) := by
  unfold FetchOrchestrator.fetchAll
  by_cases hsel : FetchOrchestrator.selectSources registry sourcesArg force now = []
  · rw [if_pos hsel, hsel]
    exact ⟨rfl, rfl, (List.append_nil todays).symm, fun _ => rfl,
      fun hne => absurd rfl hne⟩
  · rw [if_neg hsel]
    by_cases hnew : Deduplicator.deduplicate
        (FetchOrchestrator.fetchedBatch fetch
          (FetchOrchestrator.selectSources registry sourcesArg force now)) todays = []
    · rw [if_pos hnew]
      exact ⟨rfl, rfl, by rw [hnew]; exact (List.append_nil todays).symm,
        fun _ => rfl, fun hne => absurd hnew hne⟩
    · rw [if_neg hnew]
      exact ⟨rfl, rfl, rfl, fun h => absurd h hnew, fun _ => rfl⟩

/-- C5: on every invocation of `fetch_all`, the return value is exactly the
deduplicated new articles (never the full day's set); when nothing new
survived, no store write happens and the partition is unchanged; when
something survived, exactly one write of the union `existing ++ new` is
issued and the partition becomes that union. -/
theorem C5_fetch_all_frame (fetch : Source → List Article) (now : Time)
    (sourcesArg : Option (List Source)) (force : Bool)
    (registry : List Source) (todays : List Article) :
    (FetchOrchestrator.fetchAll fetch now sourcesArg force registry todays).returned =
      Deduplicator.deduplicate
        (FetchOrchestrator.fetchedBatch fetch
          (FetchOrchestrator.selectSources registry sourcesArg force now)) todays ∧
    ((FetchOrchestrator.fetchAll fetch now sourcesArg force registry todays).returned = [] →
      (FetchOrchestrator.fetchAll fetch now sourcesArg force registry todays).storeWrites = [] ∧
      (FetchOrchestrator.fetchAll fetch now sourcesArg force registry todays).todays = todays) ∧
    ((FetchOrchestrator.fetchAll fetch now sourcesArg force registry todays).returned ≠ [] →
      (FetchOrchestrator.fetchAll fetch now sourcesArg force registry todays).storeWrites =
        [todays ++
          (FetchOrchestrator.fetchAll fetch now sourcesArg force registry todays).returned] ∧
      (FetchOrchestrator.fetchAll fetch now sourcesArg force registry todays).todays =
        todays ++
          (FetchOrchestrator.fetchAll fetch now sourcesArg force registry todays).returned) := by
  obtain ⟨h1, _, h3, h4, h5⟩ :=
    fetchAll_fields fetch now sourcesArg force registry todays
  refine ⟨h1, fun hempty => ⟨h4 hempty, ?_⟩, fun hne => ⟨h5 hne, h3⟩⟩
  rw [h3, hempty, List.append_nil]

theorem C5_witness :
    (FetchOrchestrator.fetchAll (fun _ => []) 0 none false [] []).returned = [] ∧
      (FetchOrchestrator.fetchAll (fun _ => []) 0 none false [] []).storeWrites = [] := by
  refine ⟨by decide, ?_⟩
  exact ((C5_fetch_all_frame (fun _ => []) 0 none false [] []).2.1 (by decide)).1

/-! ## Claim C6 -/

/-- C6: when the article count exceeds the cap, `generate_summary` keeps
exactly `cap` articles: the prefix of the stable recency-descending sort.
The kept list is ordered descending by `(published_at or fetched_at)`,
together with the dropped articles it is a permutation of the input, and
every dropped article's key is at most every kept article's key — i.e. the
kept articles are the `cap` most recent. -/
theorem C6_limit_articles (cap : ℕ) (articles : List Article)
    (h : articles.length > cap) :
    Summarizer.limitArticles cap articles =
        (Summarizer.sortedByRecency articles).take cap ∧
      (Summarizer.limitArticles cap articles).length = cap ∧
      (Summarizer.limitArticles cap articles).Pairwise
        (fun a b => Summarizer.recencyKey b ≤ Summarizer.recencyKey a) ∧
      (Summarizer.limitArticles cap articles ++
          (Summarizer.sortedByRecency articles).drop cap).Perm articles ∧
      ∀ a ∈ Summarizer.limitArticles cap articles,
        ∀ b ∈ (Summarizer.sortedByRecency articles).drop cap,
          Summarizer.recencyKey b ≤ Summarizer.recencyKey a := by
  have hlim : Summarizer.limitArticles cap articles =
      (Summarizer.sortedByRecency articles).take cap := by
    unfold Summarizer.limitArticles
    rw [if_pos h]
  have hpairB : (Summarizer.sortedByRecency articles).Pairwise
      (fun a b =>
        decide (Summarizer.recencyKey b ≤ Summarizer.recencyKey a) = true) := by
    refine @List.sorted_mergeSort Article
      (fun a b => decide (Summarizer.recencyKey b ≤ Summarizer.recencyKey a))
      ?_ ?_ articles
    · intro a b c h1 h2
      simp only [decide_eq_true_eq] at h1 h2 ⊢
      exact le_trans h2 h1
    · intro a b
      simp only [Bool.or_eq_true, decide_eq_true_eq]
      exact le_total (Summarizer.recencyKey b) (Summarizer.recencyKey a)
  have hpair : (Summarizer.sortedByRecency articles).Pairwise
      (fun a b => Summarizer.recencyKey b ≤ Summarizer.recencyKey a) :=
    hpairB.imp (fun hab => by exact of_decide_eq_true hab)
  have hlen : (Summarizer.sortedByRecency articles).length = articles.length :=
    List.length_mergeSort articles
  refine ⟨hlim, ?_, ?_, ?_, ?_⟩
  · rw [hlim, List.length_take, hlen]
    exact Nat.min_eq_left (le_of_lt h)
  · rw [hlim]
    exact hpair.sublist (List.take_sublist cap _)
  · rw [hlim, List.take_append_drop]
    exact List.mergeSort_perm articles _
  · rw [hlim]
    have hp := hpair
    rw [← List.take_append_drop cap (Summarizer.sortedByRecency articles)] at hp
    exact (List.pairwise_append.mp hp).2.2

theorem C6_witness : (Summarizer.limitArticles 50 arts60).length = 50 :=
  (C6_limit_articles 50 arts60 (by decide)).2.1

/-! ## Claim C3 -/

/-- C3: `should_fetch` is false for a disabled source regardless of
timestamps; true for an enabled source never fetched; and otherwise true
iff the elapsed time reaches the configured interval (elapsed seconds ≥
interval × 3600, i.e. elapsed hours ≥ interval). -/
theorem C3_should_fetch (s : Source) (now : Time) :
    (s.enabled = false → s.shouldFetch now = false) ∧
    (s.enabled = true → s.last_fetched = none → s.shouldFetch now = true) ∧
    (∀ last, s.enabled = true → s.last_fetched = some last →
      (s.shouldFetch now = true ↔
        now - last ≥ (s.fetch_interval_hours : ℚ) * 3600)) := by
  unfold Source.shouldFetch
  refine ⟨fun h => by simp [h], fun h hl => by simp [h, hl],
    fun last hen hl => ?_⟩
  simp only [hen, Bool.not_true, Bool.false_eq_true, if_false, hl,
    decide_eq_true_eq, ge_iff_le]
  rw [le_div_iff₀ (by norm_num : (0 : ℚ) < 3600)]

/-- C3 witness: with the default 24-hour interval and a last fetch at time
0, a check exactly 24 hours later fetches, one at 23 hours does not. -/
theorem C3_witness :
    src24.shouldFetch 86400 = true ∧ src24.shouldFetch 82800 = false := by
  constructor
  · exact ((C3_should_fetch src24 86400).2.2 0 rfl rfl).mpr (by norm_num [src24])
  · cases hb : src24.shouldFetch 82800 with
    | false => rfl
    | true =>
      exact absurd (((C3_should_fetch src24 82800).2.2 0 rfl rfl).mp hb)
        (by norm_num [src24])

/-! ## Claim C10 -/

/-- C10: loading a date partition whose backing file is missing, or whose
contents fail to parse as JSON, returns the empty list (no exception) —
indistinguishable from an empty partition. -/
theorem C10_load_missing_or_corrupt {α : Type} (validateItem : Json → Option α)
    (files : Int → Option String) (d : Int) :
    (files d = none → JsonStore.dpLoad validateItem files d = .ok []) ∧
    (∀ text, files d = some text → Json.parse text = none →
      JsonStore.dpLoad validateItem files d = .ok []) := by
  unfold JsonStore.dpLoad JsonStore.load
  exact ⟨fun h => by rw [h], fun text h hp => by rw [h]; dsimp only; rw [hp]⟩

theorem C10_witness :
    JsonStore.dpLoad Summarizer.pyStr filesMissing 0 = PyResult.ok [] ∧
      JsonStore.dpLoad Summarizer.pyStr filesCorrupt 0 = PyResult.ok [] :=
  ⟨(C10_load_missing_or_corrupt Summarizer.pyStr filesMissing 0).1 rfl,
   (C10_load_missing_or_corrupt Summarizer.pyStr filesCorrupt 0).2
     "not valid json" rfl (by rfl)⟩

/-! ## Claim C7 -/

/-- C7: with an explicitly supplied empty list, or with no explicit list
and an empty stored partition, `generate_summary` returns `None`, sends no
client request, and writes no summary record. -/
theorem C7_generate_summary_empty (maxArticles : ℕ)
    (storedArticles : List Article) (articlesArg : Option (List Article))
    (targetDate : Int) (response : String) (tokensUsed : Int) (genTime : Time)
    (model : String)
    (h : articlesArg = some [] ∨ (articlesArg = none ∧ storedArticles = [])) :
    Summarizer.generateSummary maxArticles storedArticles articlesArg targetDate
        response tokensUsed genTime model =
      { result := .ok none, clientRequests := [], summaryWrites := [] } := by
  unfold Summarizer.generateSummary
  rcases h with h | ⟨h1, h2⟩
  · rw [h]
    rfl
  · rw [h1, h2]
    rfl

theorem C7_witness :
    Summarizer.generateSummary 50 [] none 0 "resp" 0 0 "model-m" =
      { result := .ok none, clientRequests := [], summaryWrites := [] } :=
  C7_generate_summary_empty 50 [] none 0 "resp" 0 0 "model-m" (Or.inr ⟨rfl, rfl⟩)

/-! ## Claim C4 -/

/-- C4 counterexample: the response body `"42"` is valid JSON but not the
expected structured object; `data.get` then raises `AttributeError`, which
the `except json.JSONDecodeError` clause does not catch, so NO summary
record is produced — contradicting the claim that any response not parsing
as the expected structured JSON object still yields a raw-text fallback
summary without raising. -/
theorem C4_counterexample :
    Summarizer.parseResponse "42" [artK] 0 0 0 "model-m" = PyResult.raised ∧
      (Json.parse (Summarizer.stripCodeFences "42")).map Json.isObj =
        some false := by
  exact ⟨by decide, by rfl⟩

/-- C4 (amended): when the (fence-stripped) response does not parse as JSON
at all (`json.JSONDecodeError`), the summarizer still produces a
`DailySummary` whose text is the raw response, with empty topics and
stories and `article_count` the number of input articles.  (A response
that parses as JSON but is not an object instead raises —
`C4_counterexample`.) -/
theorem C4_parse_failure_fallback (r : String) (articles : List Article)
    (d tok : Int) (t : Time) (m : String)
    (h : Json.parse (Summarizer.stripCodeFences r) = none) :
    Summarizer.parseResponse r articles d tok t m =
      .ok { date := d, generated_at := t,
            article_count := (articles.length : Int),
            article_ids := articles.map (·.id), summary_text := r,
            key_topics := [], notable_stories := [], model_used := m,
            tokens_used := some tok } := by
  unfold Summarizer.parseResponse
  simp only [h]

/-- C4 witness: the body `"not json"` yields the fallback record with
`summary_text = "not json"`, empty topics and stories, and article count
1 for a one-article input. -/
theorem C4_witness :
    Summarizer.parseResponse "not json" [artK] 0 0 0 "model-m" =
      .ok { date := 0, generated_at := 0, article_count := 1,
            article_ids := [artK.id], summary_text := "not json",
            key_topics := [], notable_stories := [], model_used := "model-m",
            tokens_used := some 0 } :=
  C4_parse_failure_fallback "not json" [artK] 0 0 0 "model-m" (by rfl)

/-! ## Claim C2 -/

/-- C2: with distinct source ids (the registry invariant: a source id is a
unique slug) and upstream results that do not depend on the mark-fetched
timestamp (no new upstream content between the two runs), running
`fetch_all` with `force=false` twice in immediate succession yields no new
articles on the second run: every second-run candidate comes from a source
already fetched in the first run, so it collides with the stored set. -/
theorem C2_fetch_all_idempotent (fetch : Source → List Article) (now : Time)
    (registry : List Source) (todays : List Article)
    (hids : (registry.map (·.id)).Nodup)
    (hfetch : ∀ (s : Source) (t : Time),
      fetch { s with last_fetched := some t } = fetch s) :
    (FetchOrchestrator.fetchAll fetch now none false
        (FetchOrchestrator.fetchAll fetch now none false registry todays).sources
        (FetchOrchestrator.fetchAll fetch now none false registry todays).todays).returned =
      [] := by
  obtain ⟨h1ret, h1src, h1tod, -, -⟩ :=
    fetchAll_fields fetch now none false registry todays
  obtain ⟨h2ret, -, -, -, -⟩ := fetchAll_fields fetch now none false
    (FetchOrchestrator.fetchAll fetch now none false registry todays).sources
    (FetchOrchestrator.fetchAll fetch now none false registry todays).todays
  rw [h2ret]
  apply Deduplicator.deduplicate_eq_nil
  intro a ha
  rw [FetchOrchestrator.mem_fetchedBatch] at ha
  obtain ⟨s', hs'due, hafetch⟩ := ha
  have hsel2 : FetchOrchestrator.selectSources
      (FetchOrchestrator.fetchAll fetch now none false registry todays).sources
      none false now =
      SourceManager.getSourcesToFetch
        (FetchOrchestrator.fetchAll fetch now none false registry todays).sources
        now := rfl
  rw [hsel2, SourceManager.mem_getSourcesToFetch] at hs'due
  obtain ⟨hs'mem, hs'en, hs'sf⟩ := hs'due
  rw [h1src] at hs'mem
  have hsel1 : FetchOrchestrator.selectSources registry none false now =
      SourceManager.getSourcesToFetch registry now := rfl
  obtain ⟨s, hsreg, hcase⟩ :=
    SourceManager.mem_foldl_markFetched now _ registry s' hs'mem
  have haInBatch1 : a ∈ FetchOrchestrator.fetchedBatch fetch
      (FetchOrchestrator.selectSources registry none false now) := by
    rw [FetchOrchestrator.mem_fetchedBatch]
    rcases hcase with h1 | ⟨h1, hid⟩
    · refine ⟨s, ?_, h1 ▸ hafetch⟩
      rw [hsel1, SourceManager.mem_getSourcesToFetch]
      exact ⟨hsreg, h1 ▸ hs'en, h1 ▸ hs'sf⟩
    · obtain ⟨d, hddue, hdid⟩ := List.mem_map.mp hid
      have hdreg : d ∈ registry := by
        rw [hsel1, SourceManager.mem_getSourcesToFetch] at hddue
        exact hddue.1
      have hds : d = s := List.inj_on_of_nodup_map hids hdreg hsreg hdid
      refine ⟨s, hds ▸ hddue, ?_⟩
      rw [h1, hfetch s now] at hafetch
      exact hafetch
  have hblocked := Deduplicator.deduplicate_blocked _ todays a haInBatch1
  rw [← h1ret] at hblocked
  rw [h1tod]
  exact hblocked

theorem C2_witness :
    (FetchOrchestrator.fetchAll (fun _ => [artK]) 86400 none false
        (FetchOrchestrator.fetchAll (fun _ => [artK]) 86400 none false
          [src24] []).sources
        (FetchOrchestrator.fetchAll (fun _ => [artK]) 86400 none false
          [src24] []).todays).returned = [] :=
  C2_fetch_all_idempotent (fun _ => [artK]) 86400 [src24] []
    (by decide) (fun _ _ => rfl)

/-! ## Claim C9 -/

/-- C9: a scraped element yields an article only if it has a discoverable
hyperlink (an anchor with a non-empty `href`) and a discoverable title
(the link text, falling back to the first heading); elements lacking
either are skipped; and when the discovered hyperlink is root-relative
(starts with `/`), the article's URL is that hyperlink resolved against
the source's URL. -/
theorem C9_parse_element (genId genHash : String → String)
    (e : WebScraper.ScrapedElement) (s : Source) (now : Time) :
    (e.link = none → WebScraper.parseElement genId genHash e s now = none) ∧
    (∀ link, e.link = some link →
      (if link.text = "" then e.headingText.getD "" else link.text) = "" →
      WebScraper.parseElement genId genHash e s now = none) ∧
    (∀ a, WebScraper.parseElement genId genHash e s now = some a →
      ∃ link, e.link = some link ∧ link.href ≠ "" ∧
        a.title = (if link.text = "" then e.headingText.getD "" else link.text) ∧
        a.title ≠ "" ∧
        (WebScraper.strStarts "/" link.href = true →
          a.url = WebScraper.urljoinSlash s.url link.href) ∧
        (WebScraper.strStarts "http://" a.url ||
          WebScraper.strStarts "https://" a.url) = true) := by
  have htitle : ∀ link : WebScraper.ScrapedLink,
      (if link.text = "" then
        match e.headingText with
        | some h => h
        | none => link.text
      else link.text) =
      (if link.text = "" then e.headingText.getD "" else link.text) := by
    intro link
    by_cases h : link.text = ""
    · rw [if_pos h, if_pos h]
      cases e.headingText with
      | none => exact h
      | some hh => rfl
    · rw [if_neg h, if_neg h]
  unfold WebScraper.parseElement
  refine ⟨fun h => by rw [h], fun link hl ht => ?_, fun a ha => ?_⟩
  · rw [hl]
    dsimp only
    by_cases hhref : link.href = ""
    · rw [if_pos hhref]
    · rw [if_neg hhref, htitle link, if_pos ht]
  · cases hl : e.link with
    | none => rw [hl] at ha; exact absurd ha (by simp)
    | some link =>
      rw [hl] at ha
      dsimp only at ha
      by_cases hhref : link.href = ""
      · rw [if_pos hhref] at ha
        exact absurd ha (by simp)
      · rw [if_neg hhref, htitle link] at ha
        by_cases ht : (if link.text = "" then e.headingText.getD "" else link.text) = ""
        · rw [if_pos ht] at ha
          exact absurd ha (by simp)
        · rw [if_neg ht] at ha
          by_cases hscheme :
              (WebScraper.strStarts "http://"
                  (if WebScraper.strStarts "/" link.href = true then
                    WebScraper.urljoinSlash s.url link.href
                  else link.href) ||
                WebScraper.strStarts "https://"
                  (if WebScraper.strStarts "/" link.href = true then
                    WebScraper.urljoinSlash s.url link.href
                  else link.href)) = true
          · rw [if_pos hscheme] at ha
            have ha' := Option.some.inj ha
            refine ⟨link, rfl, hhref, ?_, ?_, ?_, ?_⟩
            · rw [← ha']
            · rw [← ha']; exact ht
            · intro hrel
              rw [← ha']
              dsimp only
              rw [if_pos hrel]
            · rw [← ha']
              by_cases hrel : WebScraper.strStarts "/" link.href = true
              · rw [if_pos hrel] at hscheme ⊢
                exact hscheme
              · rw [if_neg hrel] at hscheme ⊢
                exact hscheme
          · rw [if_neg hscheme] at ha
            exact absurd ha (by simp)

theorem C9_witness :
    WebScraper.parseElement (fun u => "id:" ++ u) (fun c => "h:" ++ c)
      elemNoLink srcWeb 0 = none :=
  (C9_parse_element (fun u => "id:" ++ u) (fun c => "h:" ++ c)
    elemNoLink srcWeb 0).1 rfl

end Claims

end AiNews

